import Mathlib

/-!
Verification of the Blender sculpt-mode core (`sculpt.c`) against its
natural-language specification.  Each section embeds one group of source
functions as Lean definitions, keeping the C names and control flow, and
proves the corresponding specification claims.
-/

set_option maxHeartbeats 1000000

/-! ## Symmetry iteration validity (`SCULPT_is_symmetry_iteration_valid`) -/

/-- Embeds `SCULPT_is_symmetry_iteration_valid` from `sculpt.c`:
`return i == 0 || (symm & i && (symm != 5 || i != 3) && (symm != 6 || (i != 3 && i != 5)));`
The C `char` arguments are small non-negative mirror-pass indices; `symm & i`
used as a truth value means the bitwise AND is non-zero. -/
def SCULPT_is_symmetry_iteration_valid (i symm : Nat) : Bool :=
  i == 0 ||
    (symm &&& i != 0 && (symm != 5 || i != 3) && (symm != 6 || (i != 3 && i != 5)))

/-- The specification rule for symmetry-pass validity: valid exactly when
`i = 0`, or `i` is a bit-subset of `symm` excluding the redundant combined
passes (`symm = 5` excludes `i = 3`; `symm = 6` excludes `i ∈ {3, 5}`). -/
def symmetryIterationSpecRule (i symm : Nat) : Bool :=
  i == 0 ||
    ((symm &&& i == i) && !(symm == 5 && i == 3) && !(symm == 6 && (i == 3 || i == 5)))

/-! ## Face-set visibility (`SCULPT_face_sets_visibility_all_set`) -/

/-- `SCULPT_FACE_SET_NONE`: the reserved "unassigned" face-set ID. -/
def SCULPT_FACE_SET_NONE : Int := 0

/-- The per-face body shared by the `PBVH_FACES`/`PBVH_GRIDS` loop and the
`PBVH_BMESH` loop of `SCULPT_face_sets_visibility_all_set`: remap face-set
ID 0 to 1, then force the sign from the requested visibility
(`abs` when visible, `-abs` when hidden). -/
def face_set_visibility_apply (visible : Bool) (fset : Int) : Int :=
  let fset := if fset = SCULPT_FACE_SET_NONE then 1 else fset
  if visible then |fset| else -|fset|

/-- The mesh backend tag (`BKE_pbvh_type`). -/
inductive PBVHType
  | faces
  | grids
  | bmesh
deriving DecidableEq

/-- The slice of `SculptSession` read and written by
`SCULPT_face_sets_visibility_all_set`: the backend tag, the `face_sets`
array used by the `PBVH_FACES`/`PBVH_GRIDS` path, and the BMesh face-set
custom-data layer (`none` models a missing layer, i.e. a negative
`cd_faceset_offset`, on which the BMesh path returns without writing). -/
structure FaceSetSession where
  pbvh_type : PBVHType
  face_sets : List Int
  bm_face_sets : Option (List Int)

/-- Embeds `SCULPT_face_sets_visibility_all_set` from `sculpt.c`:
a switch on the backend; the faces/grids path rewrites every entry of
`ss->face_sets`, the BMesh path rewrites the face-set custom-data layer of
every face when the layer exists. -/
def SCULPT_face_sets_visibility_all_set (ss : FaceSetSession) (visible : Bool) :
    FaceSetSession :=
  match ss.pbvh_type with
  | .faces | .grids =>
      { ss with face_sets := ss.face_sets.map (face_set_visibility_apply visible) }
  | .bmesh =>
      match ss.bm_face_sets with
      | none => ss
      | some l => { ss with bm_face_sets := some (l.map (face_set_visibility_apply visible)) }

/-- The face-set storage the active backend reads: `ss->face_sets` for
faces/grids, the BMesh custom-data layer (empty when absent) for BMesh. -/
def activeFaceSets (ss : FaceSetSession) : List Int :=
  match ss.pbvh_type with
  | .faces | .grids => ss.face_sets
  | .bmesh => ss.bm_face_sets.getD []

/-! ## Fake neighbors (`SCULPT_fake_neighbor_add`) -/

/-- A store into the fake-neighbor table (a C array assignment
`index[i] = v`); `none` models the `FAKE_NEIGHBOR_NONE` (-1) sentinel. -/
def fakeNeighborStore (tbl : Nat → Option Nat) (i : Nat) (v : Option Nat) :
    Nat → Option Nat :=
  fun j => if j = i then v else tbl j

/-- Embeds `SCULPT_fake_neighbor_add` from `sculpt.c`: when slot `a` is
unassigned, write `index[a] = b` and then `index[b] = a`; otherwise do
nothing. -/
def SCULPT_fake_neighbor_add (tbl : Nat → Option Nat) (a b : Nat) :
    Nat → Option Nat :=
  if tbl a = none then
    fakeNeighborStore (fakeNeighborStore tbl a (some b)) b (some a)
  else tbl

/-- Runs a sequence of `SCULPT_fake_neighbor_add` calls. -/
def runFakeNeighborAdds (calls : List (Nat × Nat)) (tbl : Nat → Option Nat) :
    Nat → Option Nat :=
  calls.foldl (fun t c => SCULPT_fake_neighbor_add t c.1 c.2) tbl

/-- The symmetry invariant of the fake-neighbor table: if vertex `x` has
fake neighbor `y` then vertex `y` has fake neighbor `x`. -/
def FakeNeighborSymm (tbl : Nat → Option Nat) : Prop :=
  ∀ x y : Nat, tbl x = some y → tbl y = some x

/-- The call discipline actually used by `SCULPT_fake_neighbor_ensure`:
each add targets a vertex that has no fake neighbor assigned at the time of
the call (`do_fake_neighbor_search_task_cb` only returns candidates whose
table slot is unassigned). -/
def goodFakeNeighborCalls : (Nat → Option Nat) → List (Nat × Nat) → Prop
  | _, [] => True
  | tbl, c :: rest =>
      tbl c.2 = none ∧ goodFakeNeighborCalls (SCULPT_fake_neighbor_add tbl c.1 c.2) rest

/-- The all-unassigned initial table built by `SCULPT_fake_neighbors_ensure`. -/
def emptyFakeNeighborTable : Nat → Option Nat := fun _ => none

/-! ### Theorems: C1, C7, C8 -/

/-- C1: for every `symm` in `0..7` and every `i` in `0..=symm`,
`SCULPT_is_symmetry_iteration_valid i symm` returns true exactly when
`i = 0`, or `i` is a bit-subset of `symm` excluding the redundant combined
passes (`i = 3` when `symm = 5`; `i ∈ {3, 5}` when `symm = 6`). -/
theorem C1_symmetry_iteration_valid :
    ∀ symm i : Fin 8, i.val ≤ symm.val →
      SCULPT_is_symmetry_iteration_valid i.val symm.val =
        symmetryIterationSpecRule i.val symm.val := by
  decide

/-- C1 witness: the theorem applied at the concrete pass `i = 5`, `symm = 6`. -/
theorem C1_symmetry_iteration_valid_witness :
    SCULPT_is_symmetry_iteration_valid 5 6 = symmetryIterationSpecRule 5 6 :=
  C1_symmetry_iteration_valid 6 5 (by decide)

/-- Per-face sign property of `face_set_visibility_apply`. -/
theorem face_set_visibility_apply_sign (visible : Bool) (f : Int) :
    (visible = true → 1 ≤ face_set_visibility_apply visible f) ∧
      (visible = false → face_set_visibility_apply visible f ≤ -1) := by
  unfold face_set_visibility_apply SCULPT_FACE_SET_NONE
  rcases visible with _ | _ <;>
    constructor <;> intro h <;> simp at h ⊢ <;>
      by_cases h0 : f = 0 <;> simp [h0] <;> rcases abs_cases f with ⟨h1, h2⟩ <;> omega

/-- C7: for every mesh backend and both visibility values, after
`SCULPT_face_sets_visibility_all_set` every face-set value stored for the
active backend is at least 1 when `visible` is true and at most -1 when
`visible` is false; in particular no face retains the reserved ID 0. -/
theorem C7_face_sets_visibility_all_set (ss : FaceSetSession) (visible : Bool)
    (f : Int) (hf : f ∈ activeFaceSets (SCULPT_face_sets_visibility_all_set ss visible)) :
    (visible = true → 1 ≤ f) ∧ (visible = false → f ≤ -1) := by
  rcases ss with ⟨ty, fs, bfs⟩
  rcases ty with _ | _ | _ <;>
    simp only [SCULPT_face_sets_visibility_all_set, activeFaceSets] at hf
  · rcases List.mem_map.mp hf with ⟨g, _, rfl⟩
    exact face_set_visibility_apply_sign visible g
  · rcases List.mem_map.mp hf with ⟨g, _, rfl⟩
    exact face_set_visibility_apply_sign visible g
  · rcases bfs with _ | l
    · simp [activeFaceSets, Option.getD] at hf
    · simp only [activeFaceSets, Option.getD] at hf
      rcases List.mem_map.mp hf with ⟨g, _, rfl⟩
      exact face_set_visibility_apply_sign visible g

/-- C7 witness: the theorem applied to a concrete faces-backend session
holding face sets `[0, 3, -2]`, hidden; all results are at most -1. -/
theorem C7_face_sets_visibility_all_set_witness :
    ((false : Bool) = true → 1 ≤ (-3 : Int)) ∧ ((false : Bool) = false → (-3 : Int) ≤ -1) :=
  C7_face_sets_visibility_all_set ⟨PBVHType.faces, [0, 3, -2], none⟩ false (-3) (by decide)

/-- C8 counterexample: after the call sequence `add 0 1; add 2 1` from the
all-unassigned table, vertex 0 has fake neighbor 1 but vertex 1 has fake
neighbor 2, not 0 — the second call overwrites slot 1 unconditionally, so
the table is not symmetric after arbitrary call sequences. -/
theorem C8_fake_neighbor_not_symmetric :
    runFakeNeighborAdds [(0, 1), (2, 1)] emptyFakeNeighborTable 0 = some 1 ∧
      runFakeNeighborAdds [(0, 1), (2, 1)] emptyFakeNeighborTable 1 = some 2 := by
  constructor <;> rfl

/-- Pointwise reading of the table after a successful
`SCULPT_fake_neighbor_add`: slot `b` holds `a`, slot `a` holds `b`, every
other slot is unchanged. -/
theorem SCULPT_fake_neighbor_add_apply (tbl : Nat → Option Nat) (a b j : Nat)
    (ha : tbl a = none) :
    SCULPT_fake_neighbor_add tbl a b j =
      if j = b then some a else if j = a then some b else tbl j := by
  simp [SCULPT_fake_neighbor_add, ha, fakeNeighborStore]

/-- One `SCULPT_fake_neighbor_add` call whose target slot is unassigned
preserves table symmetry. -/
theorem SCULPT_fake_neighbor_add_preserves_symm (tbl : Nat → Option Nat)
    (a b : Nat) (hsymm : FakeNeighborSymm tbl) (hb : tbl b = none) :
    FakeNeighborSymm (SCULPT_fake_neighbor_add tbl a b) := by
  intro x y hxy
  by_cases ha : tbl a = none
  · rw [SCULPT_fake_neighbor_add_apply tbl a b x ha] at hxy
    rw [SCULPT_fake_neighbor_add_apply tbl a b y ha]
    by_cases hxb : x = b
    · rw [if_pos hxb] at hxy
      have hy : y = a := (Option.some.inj hxy).symm
      rw [hy]
      by_cases hab : a = b
      · rw [if_pos hab, hxb, hab]
      · rw [if_neg hab, if_pos rfl, hxb]
    · rw [if_neg hxb] at hxy
      by_cases hxa : x = a
      · rw [if_pos hxa] at hxy
        have hy : y = b := (Option.some.inj hxy).symm
        rw [hy, if_pos rfl, hxa]
      · rw [if_neg hxa] at hxy
        have hy := hsymm x y hxy
        have hyb : y ≠ b := fun h => by rw [h, hb] at hy; simp at hy
        have hya : y ≠ a := fun h => by rw [h, ha] at hy; simp at hy
        rw [if_neg hyb, if_neg hya]
        exact hy
  · rw [SCULPT_fake_neighbor_add, if_neg ha] at hxy ⊢
    exact hsymm x y hxy

/-- C8 amended: the fake-neighbor table is symmetric after any sequence of
`SCULPT_fake_neighbor_add` calls starting from a symmetric (for example the
all-unassigned) table, provided each call targets a vertex with no fake
neighbor assigned at call time — the discipline the fake-neighbor search
guarantees. -/
theorem C8_fake_neighbor_symmetric_of_good_calls (calls : List (Nat × Nat)) :
    ∀ tbl : Nat → Option Nat, FakeNeighborSymm tbl →
      goodFakeNeighborCalls tbl calls →
      FakeNeighborSymm (runFakeNeighborAdds calls tbl) := by
  induction calls with
  | nil => intro tbl hsymm _; simpa [runFakeNeighborAdds] using hsymm
  | cons c rest ih =>
      intro tbl hsymm hgood
      rcases hgood with ⟨hb, hrest⟩
      have hstep := SCULPT_fake_neighbor_add_preserves_symm tbl c.1 c.2 hsymm hb
      simpa [runFakeNeighborAdds] using
        ih (SCULPT_fake_neighbor_add tbl c.1 c.2) hstep hrest

/-- C8 witness: the amended theorem applied to the concrete call sequence
`add 0 1` from the all-unassigned table. -/
theorem C8_fake_neighbor_symmetric_witness :
    FakeNeighborSymm (runFakeNeighborAdds [(0, 1)] emptyFakeNeighborTable) :=
  C8_fake_neighbor_symmetric_of_good_calls [(0, 1)] emptyFakeNeighborTable
    (fun x y h => by simp [emptyFakeNeighborTable] at h)
    ⟨rfl, trivial⟩

/-! ## Flood fill (`SCULPT_floodfill_init` / `SCULPT_floodfill_execute`)

The adjacency graph, visibility query and visitor callback are the
parameters of the traversal: `neighbors v` lists the pairs produced by the
duplicates-and-neighbors iteration around `v` (neighbor vertex together
with its `is_duplicate` flag), `visible` embeds `SCULPT_vertex_visible_get`
and `visit_fn` embeds the callback together with its mutable `userdata`
state `σ`.  The `trace` field records every callback invocation
`(from_v, to_v, is_duplicate)` so properties of the invocation sequence can
be stated. -/

structure FloodFillGraph (n : Nat) (σ : Type) where
  neighbors : Fin n → List (Fin n × Bool)
  visible : Fin n → Bool
  visit_fn : σ → Fin n → Fin n → Bool → Bool × σ

/-- The `SculptFloodFill` state: FIFO queue (pop at the head, push at the
tail, as `BLI_gsqueue`), visited bitmap, callback userdata, and the recorded
callback-invocation trace. -/
structure SculptFloodFill (n : Nat) (σ : Type) where
  queue : List (Fin n)
  visited_vertices : Finset (Fin n)
  userdata : σ
  trace : List (Fin n × Fin n × Bool)
deriving DecidableEq

/-- `SCULPT_floodfill_init`: empty queue, all-clear visited bitmap. -/
def SCULPT_floodfill_init (n : Nat) (σ : Type) (ud : σ) : SculptFloodFill n σ :=
  ⟨[], ∅, ud, []⟩

/-- `SCULPT_floodfill_add_initial`: push a seed vertex. -/
def SCULPT_floodfill_add_initial {n : Nat} {σ : Type} (flood : SculptFloodFill n σ)
    (vertex : Fin n) : SculptFloodFill n σ :=
  { flood with queue := flood.queue ++ [vertex] }

/-- `SCULPT_floodfill_add_and_skip_initial`: push a seed vertex and mark it
visited. -/
def SCULPT_floodfill_add_and_skip_initial {n : Nat} {σ : Type}
    (flood : SculptFloodFill n σ) (vertex : Fin n) : SculptFloodFill n σ :=
  { flood with
      queue := flood.queue ++ [vertex]
      visited_vertices := insert vertex flood.visited_vertices }

/-- One neighbor step of the iteration inside `SCULPT_floodfill_execute`:
skip already-visited neighbors, skip invisible neighbors, otherwise mark
visited *before* invoking the callback, and push the neighbor when the
callback asks to continue expanding. -/
def floodfill_neighbor_step {n : Nat} {σ : Type} (G : FloodFillGraph n σ)
    (from_v : Fin n) (st : SculptFloodFill n σ) (nb : Fin n × Bool) :
    SculptFloodFill n σ :=
  let to_v := nb.1
  if to_v ∈ st.visited_vertices then st
  else if G.visible to_v = false then st
  else
    let res := G.visit_fn st.userdata from_v to_v nb.2
    { queue := if res.1 then st.queue ++ [to_v] else st.queue
      visited_vertices := insert to_v st.visited_vertices
      userdata := res.2
      trace := st.trace ++ [(from_v, to_v, nb.2)] }

/-- The full neighbor iteration around `from_v` inside
`SCULPT_floodfill_execute` (the duplicates-and-neighbors loop). -/
def floodfill_process_neighbors {n : Nat} {σ : Type} (G : FloodFillGraph n σ)
    (from_v : Fin n) (st : SculptFloodFill n σ) : SculptFloodFill n σ :=
  (G.neighbors from_v).foldl (floodfill_neighbor_step G from_v) st

/-- The `while !BLI_gsqueue_is_empty` loop of `SCULPT_floodfill_execute`,
with explicit fuel; `none` means the fuel ran out before the queue
drained. -/
def SCULPT_floodfill_execute {n : Nat} {σ : Type} (G : FloodFillGraph n σ) :
    Nat → SculptFloodFill n σ → Option (SculptFloodFill n σ)
  | _, ⟨[], vis, ud, tr⟩ => some ⟨[], vis, ud, tr⟩
  | 0, ⟨_ :: _, _, _, _⟩ => none
  | Nat.succ fuel, ⟨from_v :: rest, vis, ud, tr⟩ =>
      SCULPT_floodfill_execute G fuel
        (floodfill_process_neighbors G from_v ⟨rest, vis, ud, tr⟩)

/-- The termination measure: queue length plus number of unvisited
vertices. -/
def floodfillMeasure {n : Nat} {σ : Type} (st : SculptFloodFill n σ) : Nat :=
  st.queue.length + (n - st.visited_vertices.card)

/-- One neighbor step never increases the termination measure, and the
visited set only grows. -/
theorem floodfill_neighbor_step_measure {n : Nat} {σ : Type}
    (G : FloodFillGraph n σ) (from_v : Fin n) (st : SculptFloodFill n σ)
    (nb : Fin n × Bool) :
    floodfillMeasure (floodfill_neighbor_step G from_v st nb) ≤ floodfillMeasure st ∧
      st.visited_vertices ⊆ (floodfill_neighbor_step G from_v st nb).visited_vertices := by
  unfold floodfill_neighbor_step
  by_cases hmem : nb.1 ∈ st.visited_vertices
  · simp [hmem]
  · by_cases hvis : G.visible nb.1 = false
    · simp [hmem, hvis]
    · have hcardlt : st.visited_vertices.card < n := by
        have h1 : (insert nb.1 st.visited_vertices).card = st.visited_vertices.card + 1 :=
          Finset.card_insert_of_not_mem hmem
        have h2 : (insert nb.1 st.visited_vertices).card ≤ n := by
          calc (insert nb.1 st.visited_vertices).card
              ≤ (Finset.univ : Finset (Fin n)).card := Finset.card_le_card (Finset.subset_univ _)
            _ = n := by simp
        omega
      constructor
      · have hins : (insert nb.1 st.visited_vertices).card =
            st.visited_vertices.card + 1 := Finset.card_insert_of_not_mem hmem
        simp only [hmem, hvis, if_false, floodfillMeasure]
        by_cases hcont : (G.visit_fn st.userdata from_v nb.1 nb.2).1 = true <;>
          simp [hcont, List.length_append] <;> omega
      · simp only [hmem, hvis, if_false]
        intro x hx
        exact Finset.mem_insert_of_mem hx

/-- The whole neighbor iteration never increases the termination measure,
and the visited set only grows. -/
theorem floodfill_process_neighbors_measure {n : Nat} {σ : Type}
    (G : FloodFillGraph n σ) (from_v : Fin n) :
    ∀ (nbs : List (Fin n × Bool)) (st : SculptFloodFill n σ),
      floodfillMeasure (nbs.foldl (floodfill_neighbor_step G from_v) st) ≤
          floodfillMeasure st ∧
        st.visited_vertices ⊆
          (nbs.foldl (floodfill_neighbor_step G from_v) st).visited_vertices := by
  intro nbs
  induction nbs with
  | nil => intro st; exact ⟨le_refl _, Finset.Subset.refl _⟩
  | cons nb rest ih =>
      intro st
      have hstep := floodfill_neighbor_step_measure G from_v st nb
      have hrest := ih (floodfill_neighbor_step G from_v st nb)
      refine ⟨?_, ?_⟩
      · calc floodfillMeasure ((nb :: rest).foldl (floodfill_neighbor_step G from_v) st)
            = floodfillMeasure (rest.foldl (floodfill_neighbor_step G from_v)
                (floodfill_neighbor_step G from_v st nb)) := rfl
          _ ≤ floodfillMeasure (floodfill_neighbor_step G from_v st nb) := hrest.1
          _ ≤ floodfillMeasure st := hstep.1
      · exact Finset.Subset.trans hstep.2 hrest.2

/-- C10: `SCULPT_floodfill_execute` terminates on every finite graph, seed
set and callback: the queue drains within `queue length + number of
unvisited vertices` iterations, because a vertex is marked visited before
it is pushed and visited vertices are never pushed again. -/
theorem C10_floodfill_execute_terminates {n : Nat} {σ : Type}
    (G : FloodFillGraph n σ) :
    ∀ (fuel : Nat) (st : SculptFloodFill n σ), floodfillMeasure st ≤ fuel →
      (SCULPT_floodfill_execute G fuel st).isSome = true := by
  intro fuel
  induction fuel with
  | zero =>
      intro st hm
      rcases st with ⟨q, vis, ud, tr⟩
      rcases q with _ | ⟨v, rest⟩
      · rfl
      · exact absurd hm (by simp [floodfillMeasure])
  | succ fuel ih =>
      intro st hm
      rcases st with ⟨q, vis, ud, tr⟩
      rcases q with _ | ⟨v, rest⟩
      · rfl
      · rw [SCULPT_floodfill_execute]
        apply ih
        have hproc := floodfill_process_neighbors_measure G v (G.neighbors v)
          ⟨rest, vis, ud, tr⟩
        have hm1 : floodfillMeasure (⟨rest, vis, ud, tr⟩ : SculptFloodFill n σ) ≤ fuel := by
          simp only [floodfillMeasure, List.length_cons] at hm ⊢
          omega
        exact le_trans hproc.1 hm1

/-- C10 witness: the theorem applied to a concrete two-vertex graph with a
seeded queue and sufficient fuel. -/
theorem C10_floodfill_execute_terminates_witness :
    (SCULPT_floodfill_execute
        (⟨fun _ => [(⟨1, by omega⟩, false)], fun _ => true,
          fun u _ _ _ => (true, u)⟩ : FloodFillGraph 2 Unit) 3
        ⟨[⟨0, by omega⟩], ∅, (), []⟩).isSome = true :=
  C10_floodfill_execute_terminates _ 3 ⟨[⟨0, by omega⟩], ∅, (), []⟩ (by decide)

/-- The `to` vertex of a recorded callback invocation. -/
def traceTo {n : Nat} (e : Fin n × Fin n × Bool) : Fin n := e.2.1

/-- The invariant behind at-most-once visitation: callback `to` vertices
are pairwise distinct, every one is already marked in the visited bitmap,
and every one is visible. -/
def FloodTraceInv {n : Nat} {σ : Type} (G : FloodFillGraph n σ)
    (st : SculptFloodFill n σ) : Prop :=
  (st.trace.map traceTo).Nodup ∧
    (∀ e ∈ st.trace, traceTo e ∈ st.visited_vertices) ∧
    (∀ e ∈ st.trace, G.visible (traceTo e) = true)

/-- When the neighbor is unvisited and visible, the step marks it visited,
appends it to the trace, and pushes it exactly when the callback asks to
continue. -/
theorem floodfill_neighbor_step_eq {n : Nat} {σ : Type} (G : FloodFillGraph n σ)
    (from_v : Fin n) (st : SculptFloodFill n σ) (nb : Fin n × Bool)
    (hmem : nb.1 ∉ st.visited_vertices) (hvis : G.visible nb.1 = true) :
    floodfill_neighbor_step G from_v st nb =
      { queue := if (G.visit_fn st.userdata from_v nb.1 nb.2).1 then st.queue ++ [nb.1]
                 else st.queue
        visited_vertices := insert nb.1 st.visited_vertices
        userdata := (G.visit_fn st.userdata from_v nb.1 nb.2).2
        trace := st.trace ++ [(from_v, nb.1, nb.2)] } := by
  simp only [floodfill_neighbor_step]
  rw [if_neg hmem, if_neg (by simp [hvis])]

/-- One neighbor step preserves the trace invariant. -/
theorem floodfill_neighbor_step_trace_inv {n : Nat} {σ : Type}
    (G : FloodFillGraph n σ) (from_v : Fin n) (st : SculptFloodFill n σ)
    (nb : Fin n × Bool) (h : FloodTraceInv G st) :
    FloodTraceInv G (floodfill_neighbor_step G from_v st nb) := by
  obtain ⟨hnodup, hvisited, hvisible⟩ := h
  by_cases hmem : nb.1 ∈ st.visited_vertices
  · unfold floodfill_neighbor_step
    simpa [hmem] using ⟨hnodup, hvisited, hvisible⟩
  · by_cases hvis : G.visible nb.1 = false
    · unfold floodfill_neighbor_step
      simpa [hmem, hvis] using ⟨hnodup, hvisited, hvisible⟩
    · have hvis2 : G.visible nb.1 = true := Bool.not_eq_false _ |>.mp hvis
      rw [floodfill_neighbor_step_eq G from_v st nb hmem hvis2]
      refine ⟨?_, ?_, ?_⟩
      · dsimp only
        rw [List.map_append, List.nodup_append]
        refine ⟨hnodup, by simp, ?_⟩
        intro x hx hx1
        simp only [List.map_cons, List.map_nil, List.mem_singleton] at hx1
        rcases List.mem_map.mp hx with ⟨e, he, rfl⟩
        have hx2 : traceTo e = nb.1 := hx1
        exact hmem (hx2 ▸ hvisited e he)
      · intro e he
        dsimp only at he ⊢
        rcases List.mem_append.mp he with he | he
        · exact Finset.mem_insert_of_mem (hvisited e he)
        · simp only [List.mem_singleton] at he
          rw [he]
          exact Finset.mem_insert_self _ _
      · intro e he
        dsimp only at he
        rcases List.mem_append.mp he with he | he
        · exact hvisible e he
        · simp only [List.mem_singleton] at he
          rw [he]
          simpa [traceTo] using hvis2

/-- The whole neighbor iteration preserves the trace invariant. -/
theorem floodfill_process_neighbors_trace_inv {n : Nat} {σ : Type}
    (G : FloodFillGraph n σ) (from_v : Fin n) :
    ∀ (nbs : List (Fin n × Bool)) (st : SculptFloodFill n σ),
      FloodTraceInv G st →
        FloodTraceInv G (nbs.foldl (floodfill_neighbor_step G from_v) st) := by
  intro nbs
  induction nbs with
  | nil => intro st h; exact h
  | cons nb rest ih =>
      intro st h
      exact ih _ (floodfill_neighbor_step_trace_inv G from_v st nb h)

/-- The execute loop preserves the trace invariant. -/
theorem SCULPT_floodfill_execute_trace_inv {n : Nat} {σ : Type}
    (G : FloodFillGraph n σ) :
    ∀ (fuel : Nat) (st st2 : SculptFloodFill n σ), FloodTraceInv G st →
      SCULPT_floodfill_execute G fuel st = some st2 → FloodTraceInv G st2 := by
  intro fuel
  induction fuel with
  | zero =>
      intro st st2 hinv hexec
      rcases st with ⟨q, vis, ud, tr⟩
      rcases q with _ | ⟨v, rest⟩
      · rw [SCULPT_floodfill_execute] at hexec
        exact (Option.some.inj hexec) ▸ hinv
      · exact absurd hexec (by rw [SCULPT_floodfill_execute]; simp)
  | succ fuel ih =>
      intro st st2 hinv hexec
      rcases st with ⟨q, vis, ud, tr⟩
      rcases q with _ | ⟨v, rest⟩
      · rw [SCULPT_floodfill_execute] at hexec
        exact (Option.some.inj hexec) ▸ hinv
      · rw [SCULPT_floodfill_execute] at hexec
        exact ih _ _
          (floodfill_process_neighbors_trace_inv G v (G.neighbors v) ⟨rest, vis, ud, tr⟩ hinv)
          hexec

/-- C2: in a single completed `SCULPT_floodfill_execute` run from any seed
queue (the recorded invocation trace starting empty), the callback is
invoked with a given vertex as the `to` argument at most once, every such
vertex is marked in the visited bitmap, and no invisible vertex is ever
expanded into. -/
theorem C2_floodfill_at_most_once {n : Nat} {σ : Type} (G : FloodFillGraph n σ)
    (fuel : Nat) (q : List (Fin n)) (vis : Finset (Fin n)) (ud : σ)
    (st2 : SculptFloodFill n σ)
    (h : SCULPT_floodfill_execute G fuel ⟨q, vis, ud, []⟩ = some st2) :
    (st2.trace.map traceTo).Nodup ∧
      (∀ e ∈ st2.trace, traceTo e ∈ st2.visited_vertices) ∧
      (∀ e ∈ st2.trace, G.visible (traceTo e) = true) :=
  SCULPT_floodfill_execute_trace_inv G fuel ⟨q, vis, ud, []⟩ st2
    ⟨List.nodup_nil, by simp, by simp⟩ h

/-- C2 witness: the theorem applied to a completed concrete run on a
two-vertex graph where both vertices link to vertex 1. -/
theorem C2_floodfill_at_most_once_witness :
    (((⟨[], {1}, (), [(0, 1, false)]⟩ : SculptFloodFill 2 Unit).trace.map traceTo).Nodup ∧
        (∀ e ∈ (⟨[], {1}, (), [(0, 1, false)]⟩ : SculptFloodFill 2 Unit).trace,
          traceTo e ∈ (⟨[], {1}, (), [(0, 1, false)]⟩ : SculptFloodFill 2 Unit).visited_vertices) ∧
        (∀ e ∈ (⟨[], {1}, (), [(0, 1, false)]⟩ : SculptFloodFill 2 Unit).trace,
          (⟨fun _ => [(1, false)], fun _ => true,
            fun u _ _ _ => (true, u)⟩ : FloodFillGraph 2 Unit).visible (traceTo e) = true)) :=
  C2_floodfill_at_most_once
    (⟨fun _ => [(1, false)], fun _ => true, fun u _ _ _ => (true, u)⟩ : FloodFillGraph 2 Unit)
    3 [0] ∅ () ⟨[], {1}, (), [(0, 1, false)]⟩ (by decide)

/-! ## Fake-neighbor search (`SCULPT_fake_neighbor_search`)

`do_fake_neighbor_search_task_cb` scans the vertices of the gathered nodes
keeping the nearest acceptable candidate; the parallel reduction
(`fake_neighbor_search_reduce`) keeps the nearer of two partial results, so
the whole computation is the fold below over the candidate vertices.
Coordinates are rational; the initial `FLT_MAX` best-distance is modelled
by the `none` accumulator (no best candidate yet), which every in-range
candidate beats. -/

/-- Rational 3-vector, for the squared-distance computations. -/
def Vec3q : Type := Rat × Rat × Rat

/-- `len_squared_v3v3`: squared Euclidean distance. -/
def len_squared_v3v3q (a b : Vec3q) : Rat :=
  (a.1 - b.1) ^ 2 + (a.2.1 - b.2.1) ^ 2 + (a.2.2 - b.2.2) ^ 2

/-- One vertex visited by `do_fake_neighbor_search_task_cb`: its index, its
connected-component id (`SCULPT_vertex_get_connected_component`) and its
coordinates. -/
structure FakeNeighborCandidate where
  vertex : Nat
  topology_id : Int
  co : Vec3q

/-- The body of `do_fake_neighbor_search_task_cb` for one vertex: accept it
as the new nearest when it lies in a different connected component, has no
fake neighbor assigned, and is nearer than both the current best and the
max search distance. -/
def do_fake_neighbor_search_step (current_topology_id : Int)
    (fake : Nat → Option Nat) (search_co : Vec3q) (max_distance_squared : Rat)
    (nvtd : Option (Nat × Rat)) (vd : FakeNeighborCandidate) : Option (Nat × Rat) :=
  if vd.topology_id ≠ current_topology_id ∧ fake vd.vertex = none then
    let distance_squared := len_squared_v3v3q vd.co search_co
    match nvtd with
    | none =>
        if distance_squared < max_distance_squared then
          some (vd.vertex, distance_squared)
        else none
    | some best =>
        if distance_squared < best.2 ∧ distance_squared < max_distance_squared then
          some (vd.vertex, distance_squared)
        else some best
  else nvtd

/-- Embeds `SCULPT_fake_neighbor_search`: fold the task callback over the
candidate vertices starting from the `PBVH_REF_NONE` accumulator and return
the nearest vertex found (`none` models `PBVH_REF_NONE`). -/
def SCULPT_fake_neighbor_search (current_topology_id : Int)
    (fake : Nat → Option Nat) (search_co : Vec3q) (max_distance_squared : Rat)
    (cands : List FakeNeighborCandidate) : Option Nat :=
  (cands.foldl
      (do_fake_neighbor_search_step current_topology_id fake search_co
        max_distance_squared)
      none).map Prod.fst

/-- A candidate the search may return: different connected component, no
fake neighbor assigned, strictly within the max search distance. -/
def acceptableFakeNeighbor (current_topology_id : Int) (fake : Nat → Option Nat)
    (search_co : Vec3q) (max_distance_squared : Rat)
    (vd : FakeNeighborCandidate) : Prop :=
  vd.topology_id ≠ current_topology_id ∧ fake vd.vertex = none ∧
    len_squared_v3v3q vd.co search_co < max_distance_squared

/-- Each search step either keeps the accumulator or moves to an acceptable
candidate. -/
theorem do_fake_neighbor_search_step_cases (current_topology_id : Int)
    (fake : Nat → Option Nat) (search_co : Vec3q) (max_distance_squared : Rat)
    (nvtd : Option (Nat × Rat)) (vd : FakeNeighborCandidate) :
    do_fake_neighbor_search_step current_topology_id fake search_co
        max_distance_squared nvtd vd = nvtd ∨
      (acceptableFakeNeighbor current_topology_id fake search_co
          max_distance_squared vd ∧
        do_fake_neighbor_search_step current_topology_id fake search_co
            max_distance_squared nvtd vd =
          some (vd.vertex, len_squared_v3v3q vd.co search_co)) := by
  unfold do_fake_neighbor_search_step acceptableFakeNeighbor
  by_cases hok : vd.topology_id ≠ current_topology_id ∧ fake vd.vertex = none
  · rcases nvtd with _ | best
    · by_cases hd : len_squared_v3v3q vd.co search_co < max_distance_squared
      · exact Or.inr ⟨⟨hok.1, hok.2, hd⟩, by simp [hok, hd]⟩
      · exact Or.inl (by simp [hok, hd])
    · by_cases hd : len_squared_v3v3q vd.co search_co < best.2 ∧
          len_squared_v3v3q vd.co search_co < max_distance_squared
      · exact Or.inr ⟨⟨hok.1, hok.2, hd.2⟩, by simp [hok, hd]⟩
      · exact Or.inl (by simp [hok, hd])
  · exact Or.inl (by simp [hok])

/-- A step on an unacceptable candidate keeps the accumulator. -/
theorem do_fake_neighbor_search_step_not_acceptable (current_topology_id : Int)
    (fake : Nat → Option Nat) (search_co : Vec3q) (max_distance_squared : Rat)
    (nvtd : Option (Nat × Rat)) (vd : FakeNeighborCandidate)
    (h : ¬ acceptableFakeNeighbor current_topology_id fake search_co
        max_distance_squared vd) :
    do_fake_neighbor_search_step current_topology_id fake search_co
      max_distance_squared nvtd vd = nvtd := by
  unfold do_fake_neighbor_search_step
  unfold acceptableFakeNeighbor at h
  by_cases hok : vd.topology_id ≠ current_topology_id ∧ fake vd.vertex = none
  · have hd : ¬ len_squared_v3v3q vd.co search_co < max_distance_squared := by
      intro hd
      exact h ⟨hok.1, hok.2, hd⟩
    rcases nvtd with _ | best
    · simp [hok, hd]
    · simp [hok, hd]
  · simp [hok]

/-- Soundness of the candidate fold: any returned pair is either the
initial accumulator or an acceptable candidate from the list. -/
theorem fake_neighbor_search_fold_sound (current_topology_id : Int)
    (fake : Nat → Option Nat) (search_co : Vec3q) (max_distance_squared : Rat) :
    ∀ (cands : List FakeNeighborCandidate) (acc : Option (Nat × Rat))
      (p : Nat × Rat),
      cands.foldl
          (do_fake_neighbor_search_step current_topology_id fake search_co
            max_distance_squared) acc = some p →
      acc = some p ∨
        ∃ vd ∈ cands,
          acceptableFakeNeighbor current_topology_id fake search_co
              max_distance_squared vd ∧
            p = (vd.vertex, len_squared_v3v3q vd.co search_co) := by
  intro cands
  induction cands with
  | nil => intro acc p h; exact Or.inl h
  | cons vd rest ih =>
      intro acc p h
      rcases do_fake_neighbor_search_step_cases current_topology_id fake search_co
          max_distance_squared acc vd with hkeep | ⟨hacc, hnew⟩
      · rcases ih _ p (by rw [List.foldl_cons, hkeep] at h; exact h) with h1 | ⟨c, hc, hc2⟩
        · exact Or.inl h1
        · exact Or.inr ⟨c, List.mem_cons_of_mem _ hc, hc2⟩
      · rcases ih _ p (by rw [List.foldl_cons, hnew] at h; exact h) with h1 | ⟨c, hc, hc2⟩
        · exact Or.inr ⟨vd, List.mem_cons_self _ _,
            hacc, Option.some.inj h1.symm⟩
        · exact Or.inr ⟨c, List.mem_cons_of_mem _ hc, hc2⟩

/-- C9: `SCULPT_fake_neighbor_search` returns the `PBVH_REF_NONE` sentinel
when no acceptable candidate exists, and any vertex it returns is an
acceptable candidate: it lies in a different connected component than the
source vertex (never the source's own component), has no fake neighbor
already assigned, and lies strictly within the max search distance. -/
theorem C9_fake_neighbor_search (current_topology_id : Int)
    (fake : Nat → Option Nat) (search_co : Vec3q) (max_distance_squared : Rat)
    (cands : List FakeNeighborCandidate) :
    ((∀ vd ∈ cands, ¬ acceptableFakeNeighbor current_topology_id fake search_co
          max_distance_squared vd) →
        SCULPT_fake_neighbor_search current_topology_id fake search_co
          max_distance_squared cands = none) ∧
      (∀ v : Nat,
        SCULPT_fake_neighbor_search current_topology_id fake search_co
            max_distance_squared cands = some v →
          ∃ vd ∈ cands, vd.vertex = v ∧
            vd.topology_id ≠ current_topology_id ∧ fake v = none ∧
              len_squared_v3v3q vd.co search_co < max_distance_squared) := by
  constructor
  · intro hnone
    have : ∀ (l : List FakeNeighborCandidate),
        (∀ vd ∈ l, ¬ acceptableFakeNeighbor current_topology_id fake search_co
            max_distance_squared vd) →
        l.foldl (do_fake_neighbor_search_step current_topology_id fake search_co
          max_distance_squared) none = none := by
      intro l
      induction l with
      | nil => intro _; rfl
      | cons vd rest ih =>
          intro hl
          rw [List.foldl_cons,
            do_fake_neighbor_search_step_not_acceptable _ _ _ _ _ _
              (hl vd (List.mem_cons_self _ _))]
          exact ih fun c hc => hl c (List.mem_cons_of_mem _ hc)
    unfold SCULPT_fake_neighbor_search
    rw [this cands hnone]
    rfl
  · intro v hv
    unfold SCULPT_fake_neighbor_search at hv
    rcases Option.map_eq_some'.mp hv with ⟨p, hp, hp2⟩
    rcases fake_neighbor_search_fold_sound current_topology_id fake search_co
        max_distance_squared cands none p hp with h1 | ⟨vd, hvd, hvd2, hvd3⟩
    · exact absurd h1 (by simp)
    · refine ⟨vd, hvd, ?_, hvd2.1, ?_, hvd2.2.2⟩
      · rw [hvd3] at hp2
        exact hp2 ▸ rfl
      · have hveq : vd.vertex = v := by rw [hvd3] at hp2; exact hp2 ▸ rfl
        rw [← hveq]
        exact hvd2.2.1

/-- C9 witness: the theorem applied to a concrete two-candidate search; the
acceptable cross-component candidate (vertex 7) is returned. -/
theorem C9_fake_neighbor_search_witness :
    ∃ vd ∈ [(⟨5, 0, (0, 0, 0)⟩ : FakeNeighborCandidate), ⟨7, 1, (1, 0, 0)⟩],
      vd.vertex = 7 ∧ vd.topology_id ≠ 0 ∧ emptyFakeNeighborTable 7 = none ∧
        len_squared_v3v3q vd.co (0, 0, 0) < 4 :=
  (C9_fake_neighbor_search 0 emptyFakeNeighborTable (0, 0, 0) 4
      [⟨5, 0, (0, 0, 0)⟩, ⟨7, 1, (1, 0, 0)⟩]).2 7
    (by norm_num [SCULPT_fake_neighbor_search, do_fake_neighbor_search_step,
      len_squared_v3v3q, emptyFakeNeighborTable])

/-! ## Face-set boundary checks
(`sculpt_check_unique_face_set_in_base_mesh`,
`sculpt_check_unique_face_set_for_edge_in_base_mesh`)

The vertex-to-polygon map (`ss->pmap`), polygon loops (`ss->mpoly` /
`ss->mloop`) and the per-face `ss->face_sets` array are the inputs. -/

/-- The base-mesh topology and face-set data read by the face-set
uniqueness checks: `pmap v` lists the faces incident to vertex `v`,
`face_verts f` lists the loop vertices of face `f`, `face_sets f` is the
signed face-set value of face `f`. -/
structure FaceSetMesh where
  pmap : Nat → List Nat
  face_verts : Nat → List Nat
  face_sets : Nat → Int

/-- The loop of `sculpt_check_unique_face_set_in_base_mesh`: `face_set`
starts at the -1 sentinel, takes the absolute face-set value of the first
face, and every later face must match it in absolute value. -/
def uniqueFaceSetLoop (m : FaceSetMesh) : List Nat → Int → Bool
  | [], _ => true
  | f :: rest, face_set =>
      if face_set = -1 then uniqueFaceSetLoop m rest |m.face_sets f|
      else if |m.face_sets f| ≠ face_set then false
      else uniqueFaceSetLoop m rest face_set

/-- Embeds `sculpt_check_unique_face_set_in_base_mesh`: all faces incident
to the vertex carry the same absolute face-set ID. -/
def sculpt_check_unique_face_set_in_base_mesh (m : FaceSetMesh) (v : Nat) : Bool :=
  uniqueFaceSetLoop m (m.pmap v) (-1)

/-- The scan of `sculpt_check_unique_face_set_for_edge_in_base_mesh` that
finds the first two faces `p1`, `p2` incident to `v1` whose loops contain
`v2` (the two faces adjacent to the edge `v1-v2`). -/
def sculpt_edge_faces (m : FaceSetMesh) (v1 v2 : Nat) : Option Nat × Option Nat :=
  (m.pmap v1).foldl
    (fun p f =>
      if (m.face_verts f).contains v2 then
        match p with
        | (none, p2) => (some f, p2)
        | (some p1, none) => (some p1, some f)
        | (some p1, some p2) => (some p1, some p2)
      else p)
    (none, none)

/-- Embeds `sculpt_check_unique_face_set_for_edge_in_base_mesh`: when both
adjacent faces exist the comparison is
`abs(ss->face_sets[p1]) == (ss->face_sets[p2])` — the absolute value is
taken on the first face only, exactly as in the source. -/
def sculpt_check_unique_face_set_for_edge_in_base_mesh (m : FaceSetMesh)
    (v1 v2 : Nat) : Bool :=
  match sculpt_edge_faces m v1 v2 with
  | (some p1, some p2) => |m.face_sets p1| == m.face_sets p2
  | _ => true

/-- A two-face mesh in which both faces share the edge `0-1`; face 0 has
face-set value 2 (visible), face 1 has value -2 (hidden, same absolute
ID). -/
def faceSetEdgeBugMesh : FaceSetMesh :=
  ⟨fun v => if v = 0 then [0, 1] else if v = 1 then [0, 1] else [],
   fun f => if f = 0 then [0, 1, 2] else if f = 1 then [0, 1, 3] else [],
   fun f => if f = 0 then 2 else if f = 1 then -2 else 0⟩

/-- C5: the edge comparison is NOT insensitive to the visibility sign: on
`faceSetEdgeBugMesh` the two faces adjacent to edge `0-1` have equal
absolute face-set IDs (2 and -2), yet
`sculpt_check_unique_face_set_for_edge_in_base_mesh` reports them as
different (a face-set boundary), while the vertex check
`sculpt_check_unique_face_set_in_base_mesh` — which takes `abs` on both
sides — reports them as equal.  The `abs` is missing on the second operand
of the edge comparison. -/
theorem C5_face_set_edge_check_sign_sensitive :
    sculpt_check_unique_face_set_for_edge_in_base_mesh faceSetEdgeBugMesh 0 1 = false ∧
      |faceSetEdgeBugMesh.face_sets 0| = |faceSetEdgeBugMesh.face_sets 1| ∧
      sculpt_check_unique_face_set_in_base_mesh faceSetEdgeBugMesh 0 = true := by
  refine ⟨?_, ?_, ?_⟩ <;> decide

/-! ## Brush geometry tests over the reals

The float vector math of `sculpt.c` is embedded over the real numbers:
`sqrtf` becomes `Real.sqrt`, and the squared-length / dot-product helpers
from the math library are written out componentwise. -/

/-- Real 3-vector. -/
def Vec3 : Type := ℝ × ℝ × ℝ

/-- `len_squared_v3v3`: squared Euclidean distance. -/
noncomputable def len_squared_v3v3 (a b : Vec3) : ℝ :=
  (a.1 - b.1) ^ 2 + (a.2.1 - b.2.1) ^ 2 + (a.2.2 - b.2.2) ^ 2

/-- `len_v2v2`: planar (x, y) Euclidean distance. -/
noncomputable def len_v2v2 (a b : ℝ × ℝ) : ℝ :=
  Real.sqrt ((a.1 - b.1) ^ 2 + (a.2 - b.2) ^ 2)

/-- Squared distances are non-negative. -/
theorem len_squared_v3v3_nonneg (a b : Vec3) : 0 ≤ len_squared_v3v3 a b := by
  unfold len_squared_v3v3
  positivity

/-- The corner-region formula of `SCULPT_brush_test_cube`: Euclidean
distance to the corner circle center `(constant_side, constant_side)`,
divided by the rounded-falloff side length. -/
noncomputable def cubeCornerDist (constant_side falloff_side x y : ℝ) : ℝ :=
  len_v2v2 (constant_side, constant_side) (x, y) / falloff_side

/-- The flat-side-region formula of `SCULPT_brush_test_cube`: linear
distance past the hardness threshold in the dominant axis. -/
noncomputable def cubeSideDist (constant_side falloff_side x y : ℝ) : ℝ :=
  (max x y - constant_side) / falloff_side

/-- Embeds `SCULPT_brush_test_cube` from `sculpt.c`.  The brush-local 4x4
matrix multiplication (`mul_v3_m4v3`) is modelled by the map `localMap`,
and the view-clipping test by the predicate `clip` (both are data of the
test, not part of this function's control flow).  `some dist` models
`return true` with `test->dist = dist`; `none` models `return false`. -/
noncomputable def SCULPT_brush_test_cube (clip : Vec3 → Bool)
    (localMap : Vec3 → Vec3) (roundness : ℝ) (test_z : Bool) (co : Vec3) :
    Option ℝ :=
  if clip co then none
  else
    let local_co := localMap co
    let x := |local_co.1|
    let y := |local_co.2.1|
    let z := |local_co.2.2|
    let side : ℝ := 1 + (1 - 1) * roundness
    let hardness := 1 - roundness
    let constant_side := hardness * side
    let falloff_side := roundness * side
    if ¬ (x ≤ side ∧ y ≤ side ∧ (test_z = false ∨ z ≤ side)) then none
    else if constant_side < min x y then
      some (cubeCornerDist constant_side falloff_side x y)
    else if constant_side < max x y then
      some (cubeSideDist constant_side falloff_side x y)
    else some 0

/-- The specification's three-region piecewise distance rule for the cube
test, written from the spec: corner region when both in-plane absolute
local coordinates exceed the hardness threshold, flat-side region when
exactly one exceeds it, hard core otherwise. -/
noncomputable def cubeDistSpec (roundness x y : ℝ) : ℝ :=
  let c := 1 - roundness
  if c < x ∧ c < y then Real.sqrt ((x - c) ^ 2 + (y - c) ^ 2) / roundness
  else if c < x ∨ c < y then (max x y - c) / roundness
  else 0

/-- `SCULPT_brush_test_cube` with the side length (always 1) and the two
derived thresholds simplified away. -/
theorem SCULPT_brush_test_cube_eq (clip : Vec3 → Bool) (localMap : Vec3 → Vec3)
    (roundness : ℝ) (test_z : Bool) (co : Vec3) :
    SCULPT_brush_test_cube clip localMap roundness test_z co =
      (if clip co then none
       else
         if ¬ (|(localMap co).1| ≤ 1 ∧ |(localMap co).2.1| ≤ 1 ∧
             (test_z = false ∨ |(localMap co).2.2| ≤ 1)) then none
         else if 1 - roundness < min |(localMap co).1| |(localMap co).2.1| then
           some (cubeCornerDist (1 - roundness) roundness
             |(localMap co).1| |(localMap co).2.1|)
         else if 1 - roundness < max |(localMap co).1| |(localMap co).2.1| then
           some (cubeSideDist (1 - roundness) roundness
             |(localMap co).1| |(localMap co).2.1|)
         else some 0) := by
  have h1 : (1 : ℝ) + (1 - 1) * roundness = 1 := by ring
  simp only [SCULPT_brush_test_cube, h1, mul_one]

/-- The corner and flat-side formulas agree on the corner/side region
boundary (where the smaller in-plane coordinate equals the hardness
threshold). -/
theorem cubeCornerDist_eq_cubeSideDist_on_boundary (c f x y : ℝ)
    (h : min x y = c) :
    cubeCornerDist c f x y = cubeSideDist c f x y := by
  unfold cubeCornerDist cubeSideDist len_v2v2
  rcases le_total x y with hxy | hxy
  · have hx : x = c := by rw [← h, min_eq_left hxy]
    have hcy : c ≤ y := by rw [← hx]; exact hxy
    have harg : (c - x) ^ 2 + (c - y) ^ 2 = (y - c) ^ 2 := by rw [hx]; ring
    rw [harg, Real.sqrt_sq (by linarith), max_eq_right hxy]
  · have hy : y = c := by rw [← h, min_eq_right hxy]
    have hcx : c ≤ x := by rw [← hy]; exact hxy
    have harg : (c - x) ^ 2 + (c - y) ^ 2 = (x - c) ^ 2 := by rw [hy]; ring
    rw [harg, Real.sqrt_sq (by linarith), max_eq_left hxy]

/-- The flat-side formula vanishes on the side/core region boundary (where
the larger in-plane coordinate equals the hardness threshold), matching the
core's constant distance 0. -/
theorem cubeSideDist_zero_on_boundary (c f x y : ℝ) (h : max x y = c) :
    cubeSideDist c f x y = 0 := by
  unfold cubeSideDist
  rw [h, sub_self, zero_div]

/-- C3: for a fixed tip roundness in `[0, 1]`, every point accepted by
`SCULPT_brush_test_cube` gets the distance of the specification's
three-region piecewise rule (applied to the in-plane absolute local
coordinates), and the distance field is continuous across the region
boundaries: on the corner/side boundary the two formulas coincide, and on
the side/core boundary the side formula yields the core's 0. -/
theorem C3_cube_piecewise_and_continuity (roundness : ℝ) (h0 : 0 ≤ roundness)
    (h1 : roundness ≤ 1) :
    (∀ (clip : Vec3 → Bool) (localMap : Vec3 → Vec3) (test_z : Bool)
        (co : Vec3) (d : ℝ),
        SCULPT_brush_test_cube clip localMap roundness test_z co = some d →
          d = cubeDistSpec roundness |(localMap co).1| |(localMap co).2.1|) ∧
      (∀ x y : ℝ, min x y = 1 - roundness →
        cubeCornerDist (1 - roundness) roundness x y =
          cubeSideDist (1 - roundness) roundness x y) ∧
      (∀ x y : ℝ, max x y = 1 - roundness →
        cubeSideDist (1 - roundness) roundness x y = 0) := by
  refine ⟨?_, ?_, ?_⟩
  · intro clip localMap test_z co d h
    rw [SCULPT_brush_test_cube_eq] at h
    unfold cubeDistSpec
    by_cases hclip : clip co
    · rw [if_pos hclip] at h; cases h
    · rw [if_neg hclip] at h
      by_cases hsq : ¬ (|(localMap co).1| ≤ 1 ∧ |(localMap co).2.1| ≤ 1 ∧
          (test_z = false ∨ |(localMap co).2.2| ≤ 1))
      · rw [if_pos hsq] at h; cases h
      · rw [if_neg hsq] at h
        by_cases hcorner : 1 - roundness < min |(localMap co).1| |(localMap co).2.1|
        · rw [if_pos hcorner] at h
          have hc := lt_min_iff.mp hcorner
          rw [if_pos ⟨hc.1, hc.2⟩, ← Option.some.inj h]
          unfold cubeCornerDist len_v2v2
          have harg : ((1 - roundness) - |(localMap co).1|) ^ 2 +
              ((1 - roundness) - |(localMap co).2.1|) ^ 2 =
              (|(localMap co).1| - (1 - roundness)) ^ 2 +
                (|(localMap co).2.1| - (1 - roundness)) ^ 2 := by ring
          rw [harg]
        · rw [if_neg hcorner] at h
          have hnc : ¬ (1 - roundness < |(localMap co).1| ∧
              1 - roundness < |(localMap co).2.1|) := fun hb => hcorner (lt_min_iff.mpr hb)
          rw [if_neg hnc]
          by_cases hside : 1 - roundness < max |(localMap co).1| |(localMap co).2.1|
          · rw [if_pos hside] at h
            rw [if_pos (lt_max_iff.mp hside), ← Option.some.inj h]
            rfl
          · rw [if_neg hside] at h
            have hno : ¬ (1 - roundness < |(localMap co).1| ∨
                1 - roundness < |(localMap co).2.1|) := fun hb => hside (lt_max_iff.mpr hb)
            rw [if_neg hno, ← Option.some.inj h]
  · intro x y h
    exact cubeCornerDist_eq_cubeSideDist_on_boundary (1 - roundness) roundness x y h
  · intro x y h
    exact cubeSideDist_zero_on_boundary (1 - roundness) roundness x y h

/-- C3 witness: the theorem applied at roundness 1 and the concrete
boundary point `x = y = 0` (the hardness threshold is 0 there). -/
theorem C3_cube_piecewise_and_continuity_witness :
    cubeCornerDist (1 - 1) 1 0 0 = cubeSideDist (1 - 1) 1 0 0 :=
  (C3_cube_piecewise_and_continuity 1 zero_le_one le_rfl).2.1 0 0
    (by norm_num)

/-! ## Sphere and circle brush tests, view clipping -/

/-- `dot_v3v3`. -/
noncomputable def dot_v3v3 (a b : Vec3) : ℝ :=
  a.1 * b.1 + a.2.1 * b.2.1 + a.2.2 * b.2.2

/-- `closest_to_plane_normalized_v3`: project onto the plane
`(normal, offset)` with unit normal. -/
noncomputable def closest_to_plane_normalized_v3 (plane : Vec3 × ℝ) (co : Vec3) :
    Vec3 :=
  let t := dot_v3v3 plane.1 co + plane.2
  (co.1 - t * plane.1.1, co.2.1 - t * plane.1.2.1, co.2.2 - t * plane.1.2.2)

/-- The slice of `SculptBrushTest` used by the sphere/circle/cube tests:
brush center, radius and its square, the optional view-clipping region
(`clip_rv3d = none` models a disabled `rv3d`, its predicate embeds the
external `ED_view3d_clipping_test`), the symmetry transform applied to the
query point before clipping (`flip_v3_v3` plus the inverse radial rotation)
and the normalized view plane for the circle test. -/
structure SculptBrushTest where
  location : Vec3
  radius_squared : ℝ
  radius : ℝ
  clip_rv3d : Option (Vec3 → Bool)
  symm_transform : Vec3 → Vec3
  plane_view : Vec3 × ℝ

/-- Embeds `sculpt_brush_test_clipping`: false when clipping is disabled,
otherwise the view test applied to the symmetry-transformed point. -/
def sculpt_brush_test_clipping (test : SculptBrushTest) (co : Vec3) : Bool :=
  match test.clip_rv3d with
  | none => false
  | some clip_test => clip_test (test.symm_transform co)

/-- Embeds `SCULPT_brush_test_sphere`: reject beyond the squared radius,
reject clipped points, otherwise accept with the Euclidean distance. -/
noncomputable def SCULPT_brush_test_sphere (test : SculptBrushTest) (co : Vec3) :
    Option ℝ :=
  let distsq := len_squared_v3v3 co test.location
  if test.radius_squared < distsq then none
  else if sculpt_brush_test_clipping test co then none
  else some (Real.sqrt distsq)

/-- Embeds `SCULPT_brush_test_circle_sq`: project onto the view plane,
reject beyond the squared radius, reject clipped points, otherwise accept
with the squared planar distance. -/
noncomputable def SCULPT_brush_test_circle_sq (test : SculptBrushTest) (co : Vec3) :
    Option ℝ :=
  let co_proj := closest_to_plane_normalized_v3 test.plane_view co
  let distsq := len_squared_v3v3 co_proj test.location
  if test.radius_squared < distsq then none
  else if sculpt_brush_test_clipping test co then none
  else some distsq

/-- A brush test with radius 0 (and thus squared radius 0), centered at the
origin, with clipping disabled. -/
noncomputable def zeroRadiusBrushTest : SculptBrushTest :=
  ⟨(0, 0, 0), 0, 0, none, id, ((0, 0, 1), 0)⟩

/-- C6 counterexample: with brush radius 0 not every point is rejected —
`SCULPT_brush_test_sphere` accepts the point exactly at the brush center
(distance 0 is not greater than the squared radius 0), so the tests do not
special-case `radius == 0` by rejecting everything. -/
theorem C6_zero_radius_accepts_center :
    zeroRadiusBrushTest.radius = 0 ∧
      SCULPT_brush_test_sphere zeroRadiusBrushTest (0, 0, 0) = some 0 := by
  constructor
  · rfl
  · unfold SCULPT_brush_test_sphere zeroRadiusBrushTest sculpt_brush_test_clipping
      len_squared_v3v3
    norm_num

/-- C6 amended: for the sphere, circle and cube tests, a point rejected by
the active view-clipping planes is rejected regardless of its distance to
the brush center; and when the squared brush radius is 0 the sphere and
circle tests accept only points at squared distance 0 from the (projected)
center, reporting distance 0 — no division by the radius occurs in any of
the three tests. -/
theorem C6_clipping_and_zero_radius (test : SculptBrushTest) (co : Vec3) :
    (sculpt_brush_test_clipping test co = true →
        SCULPT_brush_test_sphere test co = none ∧
          SCULPT_brush_test_circle_sq test co = none ∧
          ∀ (localMap : Vec3 → Vec3) (roundness : ℝ) (test_z : Bool),
            SCULPT_brush_test_cube (sculpt_brush_test_clipping test) localMap
              roundness test_z co = none) ∧
      (test.radius_squared = 0 →
        (∀ d, SCULPT_brush_test_sphere test co = some d →
            len_squared_v3v3 co test.location = 0 ∧ d = 0) ∧
          (∀ d, SCULPT_brush_test_circle_sq test co = some d →
            len_squared_v3v3 (closest_to_plane_normalized_v3 test.plane_view co)
                test.location = 0 ∧ d = 0)) := by
  constructor
  · intro hclip
    refine ⟨?_, ?_, ?_⟩
    · unfold SCULPT_brush_test_sphere
      by_cases hd : test.radius_squared < len_squared_v3v3 co test.location <;>
        simp [hd, hclip]
    · unfold SCULPT_brush_test_circle_sq
      by_cases hd : test.radius_squared <
          len_squared_v3v3 (closest_to_plane_normalized_v3 test.plane_view co)
            test.location <;>
        simp [hd, hclip]
    · intro localMap roundness test_z
      unfold SCULPT_brush_test_cube
      simp [hclip]
  · intro hr0
    constructor
    · intro d hd
      unfold SCULPT_brush_test_sphere at hd
      by_cases hgt : test.radius_squared < len_squared_v3v3 co test.location
      · rw [if_pos hgt] at hd; cases hd
      · rw [if_neg hgt] at hd
        have hz : len_squared_v3v3 co test.location = 0 := by
          have := len_squared_v3v3_nonneg co test.location
          rw [hr0] at hgt
          linarith [not_lt.mp hgt]
        refine ⟨hz, ?_⟩
        by_cases hclip : sculpt_brush_test_clipping test co
        · rw [if_pos hclip] at hd; cases hd
        · rw [if_neg hclip] at hd
          rw [← Option.some.inj hd, hz, Real.sqrt_zero]
    · intro d hd
      unfold SCULPT_brush_test_circle_sq at hd
      by_cases hgt : test.radius_squared <
          len_squared_v3v3 (closest_to_plane_normalized_v3 test.plane_view co)
            test.location
      · rw [if_pos hgt] at hd; cases hd
      · rw [if_neg hgt] at hd
        have hz : len_squared_v3v3
            (closest_to_plane_normalized_v3 test.plane_view co) test.location = 0 := by
          have := len_squared_v3v3_nonneg
            (closest_to_plane_normalized_v3 test.plane_view co) test.location
          rw [hr0] at hgt
          linarith [not_lt.mp hgt]
        refine ⟨hz, ?_⟩
        by_cases hclip : sculpt_brush_test_clipping test co
        · rw [if_pos hclip] at hd; cases hd
        · rw [if_neg hclip] at hd
          rw [← Option.some.inj hd, hz]

/-- A brush test whose view clipping rejects every point. -/
noncomputable def allClippedBrushTest : SculptBrushTest :=
  ⟨(0, 0, 0), 1, 1, some (fun _ => true), id, ((0, 0, 1), 0)⟩

/-- C6 witness: the amended theorem applied to a test that clips every
point; the sphere test rejects the brush center itself. -/
theorem C6_clipping_and_zero_radius_witness :
    SCULPT_brush_test_sphere allClippedBrushTest (0, 0, 0) = none :=
  ((C6_clipping_and_zero_radius allClippedBrushTest (0, 0, 0)).1 rfl).1

/-! ## Symmetry feather (`calc_overlap` / `calc_symmetry_feather`) -/

/-- A radial symmetry axis (the `'X'`/`'Y'`/`'Z'` axis characters; the C
value 0 for "no rotation" is modelled by `Option.none` at the call sites). -/
inductive RadialAxis
  | X
  | Y
  | Z

/-- Modelled from the spec: `flip_v3_v3` (math library, outside the
provided sources) flips the coordinates across the mirror planes indicated
by the symmetry bits (bit 1 = X plane, bit 2 = Y plane, bit 4 = Z plane). -/
noncomputable def flip_v3 (v : Vec3) (symm : Nat) : Vec3 :=
  (if symm &&& 1 ≠ 0 then -v.1 else v.1,
   if symm &&& 2 ≠ 0 then -v.2.1 else v.2.1,
   if symm &&& 4 ≠ 0 then -v.2.2 else v.2.2)

/-- Modelled from the spec: `axis_angle_to_mat3_single` followed by
`mul_m3_v3` (math library, outside the provided sources) rotates a vector
about one coordinate axis by the given angle. -/
noncomputable def axis_angle_rotate (axis : RadialAxis) (angle : ℝ) (v : Vec3) :
    Vec3 :=
  match axis with
  | .X => (v.1, Real.cos angle * v.2.1 - Real.sin angle * v.2.2,
      Real.sin angle * v.2.1 + Real.cos angle * v.2.2)
  | .Y => (Real.cos angle * v.1 + Real.sin angle * v.2.2, v.2.1,
      -Real.sin angle * v.1 + Real.cos angle * v.2.2)
  | .Z => (Real.cos angle * v.1 - Real.sin angle * v.2.1,
      Real.sin angle * v.1 + Real.cos angle * v.2.1, v.2.2)

/-- The slice of `StrokeCache` read by the symmetry-feather computation. -/
structure StrokeCache where
  true_location : Vec3
  radius : ℝ
  radius_squared : ℝ
  symmetry : Nat

/-- The slice of the `Sculpt` tool settings read by the symmetry-feather
computation: per-axis radial symmetry counts and the
`PAINT_SYMMETRY_FEATHER` flag. -/
structure SculptToolSettings where
  radial_symm : RadialAxis → Nat
  symmetry_feather : Bool

/-- The transformed brush center of one symmetry/radial instance: the true
location flipped across the mirror planes of `symm` and, for a radial
instance, rotated about the radial axis. -/
noncomputable def symmetryInstanceCenter (cache : StrokeCache) (symm : Nat)
    (axis : Option RadialAxis) (angle : ℝ) : Vec3 :=
  match axis with
  | none => flip_v3 cache.true_location symm
  | some ax => axis_angle_rotate ax angle (flip_v3 cache.true_location symm)

/-- Embeds `calc_overlap` from `sculpt.c`: mirror (and radially rotate) the
true brush location, then score the overlap of the transformed center with
the true center: `(2r - sqrt(distsq)) / (2r)` when `radius > 0` and
`distsq <= 4 * radius_squared`, else 0. -/
noncomputable def calc_overlap (cache : StrokeCache) (symm : Nat)
    (axis : Option RadialAxis) (angle : ℝ) : ℝ :=
  let mirror := symmetryInstanceCenter cache symm axis angle
  let distsq := len_squared_v3v3 mirror cache.true_location
  if 0 < cache.radius ∧ distsq ≤ 4 * cache.radius_squared then
    (2 * cache.radius - Real.sqrt distsq) / (2 * cache.radius)
  else 0

/-- Embeds `calc_radial_symmetry_feather`: sum the overlap of the radial
instances `i = 1 .. radial_symm[axis] - 1` at angles `2 pi i / n`. -/
noncomputable def calc_radial_symmetry_feather (sd : SculptToolSettings)
    (cache : StrokeCache) (symm : Nat) (axis : RadialAxis) : ℝ :=
  ∑ i ∈ Finset.Ico 1 (sd.radial_symm axis),
    calc_overlap cache symm (some axis)
      (2 * Real.pi * (i : ℝ) / (sd.radial_symm axis : ℝ))

/-- The total overlap accumulated by `calc_symmetry_feather`: for every
valid mirror pass, the mirror instance plus the three radial sums. -/
noncomputable def symmetry_feather_overlap_total (sd : SculptToolSettings)
    (cache : StrokeCache) : ℝ :=
  ∑ i ∈ Finset.range (cache.symmetry + 1),
    if SCULPT_is_symmetry_iteration_valid i cache.symmetry then
      calc_overlap cache i none 0 +
        calc_radial_symmetry_feather sd cache i RadialAxis.X +
        calc_radial_symmetry_feather sd cache i RadialAxis.Y +
        calc_radial_symmetry_feather sd cache i RadialAxis.Z
    else 0

/-- Embeds `calc_symmetry_feather`: 1 when the feather option is disabled,
otherwise the reciprocal of the total overlap (1 when the total is 0). -/
noncomputable def calc_symmetry_feather (sd : SculptToolSettings)
    (cache : StrokeCache) : ℝ :=
  if sd.symmetry_feather = false then 1
  else if symmetry_feather_overlap_total sd cache ≠ 0 then
    1 / symmetry_feather_overlap_total sd cache
  else 1

/-- The specification's overlap score, written from the spec: a transformed
brush center at distance `delta` from the true center scores
`(2r - delta) / (2r)` when `delta < 2r`, else 0. -/
noncomputable def overlapSpec (r delta : ℝ) : ℝ :=
  if delta < 2 * r then (2 * r - delta) / (2 * r) else 0

/-- The distance between one instance's transformed brush center and the
true center. -/
noncomputable def instanceDelta (cache : StrokeCache) (symm : Nat)
    (axis : Option RadialAxis) (angle : ℝ) : ℝ :=
  Real.sqrt
    (len_squared_v3v3 (symmetryInstanceCenter cache symm axis angle)
      cache.true_location)

/-- The specification's total overlap: the sum of the spec overlap score
over all valid symmetry and radial instances. -/
noncomputable def symmetryFeatherSpecTotal (sd : SculptToolSettings)
    (cache : StrokeCache) : ℝ :=
  ∑ i ∈ Finset.range (cache.symmetry + 1),
    if SCULPT_is_symmetry_iteration_valid i cache.symmetry then
      overlapSpec cache.radius (instanceDelta cache i none 0) +
        (∑ k ∈ Finset.Ico 1 (sd.radial_symm RadialAxis.X),
          overlapSpec cache.radius (instanceDelta cache i (some RadialAxis.X)
            (2 * Real.pi * (k : ℝ) / (sd.radial_symm RadialAxis.X : ℝ)))) +
        (∑ k ∈ Finset.Ico 1 (sd.radial_symm RadialAxis.Y),
          overlapSpec cache.radius (instanceDelta cache i (some RadialAxis.Y)
            (2 * Real.pi * (k : ℝ) / (sd.radial_symm RadialAxis.Y : ℝ)))) +
        (∑ k ∈ Finset.Ico 1 (sd.radial_symm RadialAxis.Z),
          overlapSpec cache.radius (instanceDelta cache i (some RadialAxis.Z)
            (2 * Real.pi * (k : ℝ) / (sd.radial_symm RadialAxis.Z : ℝ))))
    else 0

/-- The specification's symmetry-feather factor: 1 when disabled, else
`1 / total overlap`, and 1 when the total overlap is zero. -/
noncomputable def symmetryFeatherSpec (sd : SculptToolSettings)
    (cache : StrokeCache) : ℝ :=
  if sd.symmetry_feather = false then 1
  else if symmetryFeatherSpecTotal sd cache = 0 then 1
  else 1 / symmetryFeatherSpecTotal sd cache

/-- The scalar heart of the overlap equivalence: the code's guard
`distsq <= 4 * radius_squared` and value agree with the spec's guard
`delta < 2r` and value, for positive radius (at the boundary
`delta = 2r` the code's formula evaluates to the spec's 0). -/
theorem overlap_formula_eq (r rs d : ℝ) (hr : 0 < r) (hrs : rs = r ^ 2)
    (hd : 0 ≤ d) :
    (if 0 < r ∧ d ≤ 4 * rs then (2 * r - Real.sqrt d) / (2 * r) else 0) =
      (if Real.sqrt d < 2 * r then (2 * r - Real.sqrt d) / (2 * r) else 0) := by
  subst hrs
  by_cases h : d ≤ 4 * r ^ 2
  · rw [if_pos ⟨hr, h⟩]
    by_cases hs : Real.sqrt d < 2 * r
    · rw [if_pos hs]
    · have hle : Real.sqrt d ≤ 2 * r := by
        have h4 : 4 * r ^ 2 = (2 * r) ^ 2 := by ring
        rw [h4] at h
        calc Real.sqrt d ≤ Real.sqrt ((2 * r) ^ 2) := Real.sqrt_le_sqrt h
          _ = 2 * r := Real.sqrt_sq (by linarith)
      have heq : Real.sqrt d = 2 * r := le_antisymm hle (not_lt.mp hs)
      rw [if_neg hs, heq, sub_self, zero_div]
  · rw [if_neg fun hc => h hc.2]
    have hgt : ¬ Real.sqrt d < 2 * r := by
      intro hs
      have hd4 : d < 4 * r ^ 2 := by
        have h4 : (2 * r) ^ 2 = 4 * r ^ 2 := by ring
        calc d = Real.sqrt d ^ 2 := (Real.sq_sqrt hd).symm
          _ < (2 * r) ^ 2 :=
              pow_lt_pow_left₀ hs (Real.sqrt_nonneg d) (by norm_num)
          _ = 4 * r ^ 2 := h4
      linarith
    rw [if_neg hgt]

/-- `calc_overlap` computes exactly the specification's overlap score of
the instance's transformed center. -/
theorem calc_overlap_eq_spec (cache : StrokeCache) (symm : Nat)
    (axis : Option RadialAxis) (angle : ℝ) (hr : 0 < cache.radius)
    (hrs : cache.radius_squared = cache.radius ^ 2) :
    calc_overlap cache symm axis angle =
      overlapSpec cache.radius (instanceDelta cache symm axis angle) := by
  unfold calc_overlap overlapSpec instanceDelta
  exact overlap_formula_eq cache.radius cache.radius_squared
    (len_squared_v3v3 (symmetryInstanceCenter cache symm axis angle)
      cache.true_location)
    hr hrs (len_squared_v3v3_nonneg _ _)

/-- C4: for every stroke cache with radius `r > 0` (and the cached square
`radius_squared = r^2`), the symmetry-feather factor equals the
specification's formula: 1 when the feather option is disabled, otherwise
the reciprocal of the total overlap score summed over all valid symmetry
and radial instances — where an instance at distance `delta` scores
`(2r - delta) / (2r)` when `delta < 2r` and 0 otherwise — and 1 when the
total overlap is zero. -/
theorem C4_symmetry_feather (sd : SculptToolSettings) (cache : StrokeCache)
    (hr : 0 < cache.radius)
    (hrs : cache.radius_squared = cache.radius ^ 2) :
    calc_symmetry_feather sd cache = symmetryFeatherSpec sd cache := by
  have htot : symmetry_feather_overlap_total sd cache =
      symmetryFeatherSpecTotal sd cache := by
    unfold symmetry_feather_overlap_total symmetryFeatherSpecTotal
      calc_radial_symmetry_feather
    refine Finset.sum_congr rfl fun i _ => ?_
    by_cases hv : SCULPT_is_symmetry_iteration_valid i cache.symmetry
    · rw [if_pos hv, if_pos hv, calc_overlap_eq_spec cache i none 0 hr hrs]
      congr 1
      · congr 1
        · congr 1
          exact Finset.sum_congr rfl fun k _ =>
            calc_overlap_eq_spec cache i (some RadialAxis.X) _ hr hrs
        · exact Finset.sum_congr rfl fun k _ =>
            calc_overlap_eq_spec cache i (some RadialAxis.Y) _ hr hrs
      · exact Finset.sum_congr rfl fun k _ =>
          calc_overlap_eq_spec cache i (some RadialAxis.Z) _ hr hrs
    · rw [if_neg hv, if_neg hv]
  unfold calc_symmetry_feather symmetryFeatherSpec
  by_cases hf : sd.symmetry_feather = false
  · rw [if_pos hf, if_pos hf]
  · rw [if_neg hf, if_neg hf, htot]
    by_cases ht : symmetryFeatherSpecTotal sd cache = 0
    · rw [if_neg (by simpa using ht), if_pos ht]
    · rw [if_pos ht, if_neg ht]

/-- C4 witness: the theorem applied to a concrete cache (radius 1, no
mirror symmetry, radial counts 1, feather enabled). -/
theorem C4_symmetry_feather_witness :
    calc_symmetry_feather ⟨fun _ => 1, true⟩ ⟨(0, 0, 0), 1, 1, 0⟩ =
      symmetryFeatherSpec ⟨fun _ => 1, true⟩ ⟨(0, 0, 0), 1, 1, 0⟩ :=
  C4_symmetry_feather ⟨fun _ => 1, true⟩ ⟨(0, 0, 0), 1, 1, 0⟩ one_pos
    (by norm_num)
